import Mathlib

/-!
Verification of the agent-orchestration pipeline (`orchestrator.py`) and the
result-processing chain of `generate_executive_summary`
(`investment_summary_agent.py`).

Python runtime values that flow through the execution context and the JSON
layer are modelled by `Val` below (strings, integers, booleans, `None`,
lists and insertion-ordered dicts).  Machine floats do not occur in any of
the claims, so the JSON model covers the integer-numeral subset.
-/

/-- Model of the Python values stored in the execution context and produced
by `json.loads`: `None`, booleans, integers, strings, lists and dicts
(dicts are insertion-ordered association lists with unique keys, exactly as
CPython dicts behave). -/
inductive Val where
  | vNull : Val
  | vBool (b : Bool) : Val
  | vInt (n : Int) : Val
  | vStr (s : String) : Val
  | vArr (xs : List Val) : Val
  | vObj (fields : List (String × Val)) : Val

mutual

/-- Structural (boolean) equality on `Val`. -/
def Val.beq : Val → Val → Bool
  | .vNull, .vNull => true
  | .vBool a, .vBool b => a == b
  | .vInt a, .vInt b => a == b
  | .vStr a, .vStr b => a == b
  | .vArr xs, .vArr ys => Val.beqList xs ys
  | .vObj fs, .vObj gs => Val.beqFields fs gs
  | _, _ => false

/-- Structural equality on lists of `Val`. -/
def Val.beqList : List Val → List Val → Bool
  | [], [] => true
  | a :: as, b :: bs => Val.beq a b && Val.beqList as bs
  | _, _ => false

/-- Structural equality on association lists of `Val`. -/
def Val.beqFields : List (String × Val) → List (String × Val) → Bool
  | [], [] => true
  | (k, v) :: fs, (l, w) :: gs => k == l && Val.beq v w && Val.beqFields fs gs
  | _, _ => false

end

/-- Python dict lookup: first (and, with unique keys, only) binding. -/
def dictGet {α : Type} (fields : List (String × α)) (k : String) : Option α :=
  match fields with
  | [] => none
  | p :: rest => if p.1 = k then some p.2 else dictGet rest k

/-- Python dict assignment `d[k] = v`: replace the value in place when the
key exists, else append (CPython keeps the original insertion position on
update and appends new keys). -/
def dictInsert {α : Type} (fields : List (String × α)) (k : String) (v : α) :
    List (String × α) :=
  match fields with
  | [] => [(k, v)]
  | p :: rest => if p.1 = k then (k, v) :: rest else p :: dictInsert rest k v

/-- Python truthiness of a `Val` (`bool(x)`). -/
def truthy : Val → Bool
  | .vNull => false
  | .vBool b => b
  | .vInt n => n != 0
  | .vStr s => !s.isEmpty
  | .vArr xs => !xs.isEmpty
  | .vObj fs => !fs.isEmpty

/-- Python `x is None`. -/
def isNullB : Val → Bool
  | .vNull => true
  | _ => false

/-! ## Model of `json.loads`

`investment_summary_agent.py` and `orchestrator.py` both use Python's
`json.loads` on model-generated text.  The parser below is a faithful
executable model of `json.loads` on the JSON fragment that occurs in this
repository: `null`, booleans, integer numerals, strings with the common
escape sequences, arrays and objects.  Inputs outside this fragment
(floating-point numerals, `\u` escapes) are conservatively rejected; every
theorem quantifying over parse results is conditioned on the outcome of
this model.  Duplicate object keys follow CPython dict semantics (the last
binding wins, the first occurrence keeps its position) via `dictInsert`. -/

/-- JSON whitespace (the regex class `\s` restricted to the characters that
occur in this repository's data). -/
def isWsChar (c : Char) : Bool :=
  ([' ', '\n', '\t', '\r'] : List Char).contains c

/-- Drop leading whitespace. -/
def skipWs : List Char → List Char
  | [] => []
  | c :: cs => if isWsChar c then skipWs cs else c :: cs

/-- Match a literal at the head of the input, returning the rest. -/
def litHere (pat : List Char) (cs : List Char) : Option (List Char) :=
  if cs.take pat.length == pat then some (cs.drop pat.length) else none

/-- The two-character JSON string escapes supported by the model, as a
table from escape letter to decoded character. -/
def escTable : List (Char × Char) :=
  [('"', '"'), ('\\', '\\'), ('/', '/'), ('n', '\n'), ('t', '\t'),
   ('r', '\r')]

/-- Decode one escape letter via the table. -/
def escChar (e : Char) : Option Char :=
  (escTable.find? (fun p => p.1 == e)).map (fun p => p.2)

/-- Parse the body of a JSON string (after the opening quote), returning the
decoded characters and the rest of the input after the closing quote. -/
def parseStrBody : List Char → Option (List Char × List Char)
  | [] => none
  | '"' :: rest => some ([], rest)
  | '\\' :: e :: rest =>
      match escChar e with
      | some c => (parseStrBody rest).map (fun p => (c :: p.1, p.2))
      | none => none
  | c :: rest => (parseStrBody rest).map (fun p => (c :: p.1, p.2))

/-- Accumulate a decimal numeral. -/
def digitsVal (acc : Nat) : List Char → Nat × List Char
  | [] => (acc, [])
  | c :: cs =>
      if c.isDigit then digitsVal (acc * 10 + (c.toNat - 48)) cs
      else (acc, c :: cs)

/-- Parse an unsigned integer numeral; a following `.`, `e` or `E` marks a
floating-point numeral, which lies outside the model and is rejected. -/
def parseNumCore (cs : List Char) : Option (Nat × List Char) :=
  match cs with
  | [] => none
  | c :: _ =>
      if !c.isDigit then none
      else
        let p := digitsVal 0 cs
        match p.2 with
        | '.' :: _ => none
        | 'e' :: _ => none
        | 'E' :: _ => none
        | _ => some p

/-- Parse a (possibly negated) integer numeral as a `Val`. -/
def parseNumAt (cs : List Char) : Option (Val × List Char) :=
  match cs with
  | '-' :: rest =>
      (parseNumCore rest).map (fun p => (Val.vInt (-(p.1 : Int)), p.2))
  | _ => (parseNumCore cs).map (fun p => (Val.vInt ((p.1 : Int)), p.2))

mutual

/-- Parse one JSON value, fuel-bounded.  `loads` supplies fuel larger than
any possible recursion depth, so the bound never bites on real input. -/
def parseV : Nat → List Char → Option (Val × List Char)
  | 0, _ => none
  | f + 1, cs =>
    let t := skipWs cs
    match litHere (("null").toList) t with
    | some r => some (.vNull, r)
    | none =>
    match litHere (("true").toList) t with
    | some r => some (.vBool true, r)
    | none =>
    match litHere (("false").toList) t with
    | some r => some (.vBool false, r)
    | none =>
    match t with
    | '"' :: r =>
        match parseStrBody r with
        | some (s, r2) => some (.vStr s.asString, r2)
        | none => none
    | '[' :: r =>
        (match skipWs r with
        | ']' :: r2 => some (.vArr [], r2)
        | _ =>
          match parseItems f r with
          | some (xs, r2) => some (.vArr xs, r2)
          | none => none)
    | '\x7b' :: r =>
        (match skipWs r with
        | '\x7d' :: r2 => some (.vObj [], r2)
        | _ =>
          match parseMembers f r with
          | some (ps, r2) =>
              some (.vObj (ps.foldl (fun d p => dictInsert d p.1 p.2) []), r2)
          | none => none)
    | c :: r => if c.isDigit || c == '-' then parseNumAt (c :: r) else none
    | [] => none

/-- Parse the comma-separated items of a non-empty JSON array, up to and
including the closing bracket. -/
def parseItems : Nat → List Char → Option (List Val × List Char)
  | 0, _ => none
  | f + 1, cs =>
    match parseV f cs with
    | some (v, r) =>
        (match skipWs r with
        | ',' :: r2 =>
            match parseItems f r2 with
            | some (xs, r3) => some (v :: xs, r3)
            | none => none
        | ']' :: r2 => some ([v], r2)
        | _ => none)
    | none => none

/-- Parse the comma-separated members of a non-empty JSON object, up to and
including the closing brace, in textual order. -/
def parseMembers : Nat → List Char → Option (List (String × Val) × List Char)
  | 0, _ => none
  | f + 1, cs =>
    match skipWs cs with
    | '"' :: r =>
        (match parseStrBody r with
        | some (k, r2) =>
            (match skipWs r2 with
            | ':' :: r3 =>
                (match parseV f r3 with
                | some (v, r4) =>
                    (match skipWs r4 with
                    | ',' :: r5 =>
                        (match parseMembers f r5 with
                        | some (ps, r6) => some ((k.asString, v) :: ps, r6)
                        | none => none)
                    | '\x7d' :: r5 => some ([(k.asString, v)], r5)
                    | _ => none)
                | none => none)
            | _ => none)
        | none => none)
    | _ => none

end

/-- Model of `json.loads`: the whole input must be one JSON value followed
only by whitespace. -/
def loads (s : String) : Option Val :=
  match parseV (s.length * 2 + 8) s.toList with
  | some (v, rest) => if skipWs rest = [] then some v else none
  | none => none

/-! ## The result-processing chain of `generate_executive_summary`
(`investment_summary_agent.py`, lines 344-503)

`processResult` below models what the function does to the raw text
`result_str` produced by the analysis service:
1. `re.search(r'(\x7b.*\x7d)', result_str, re.DOTALL)` — with a greedy
   `.*` under DOTALL this matches from the first opening brace to the last
   closing brace of the whole text; on a match the substring is fed to
   `json.loads` and, on success, returned as-is (line 353).
2. otherwise `json.loads(result_str)` on the whole text; on success the
   parsed value is returned as-is (line 503 via `summary_data`).
3. otherwise the regex-fallback document construction (lines 370-499).
The whole chain sits inside `try`/`except`, and no step of the chain can
raise past it, so the model is a total function. -/

/-- Index of the first occurrence of `c`, if any. -/
def firstIdxOf (c : Char) (cs : List Char) : Option Nat :=
  cs.findIdx? (fun x => x == c)

/-- Index of the last occurrence of `c`, if any. -/
def lastIdxOf (c : Char) (cs : List Char) : Option Nat :=
  match (cs.reverse).findIdx? (fun x => x == c) with
  | some i => some (cs.length - 1 - i)
  | none => none

/-- The region matched by `re.search(r'(\x7b.*\x7d)', s, re.DOTALL)`:
from the first opening brace to the last closing brace (greedy match under
DOTALL); no match when every opening brace comes after the last closing
brace. -/
def bracedRegion (s : String) : Option String :=
  let cs := s.toList
  match firstIdxOf '\x7b' cs, lastIdxOf '\x7d' cs with
  | some i, some j =>
      if i < j then some (((cs.drop i).take (j - i + 1)).asString) else none
  | _, _ => none

/-- Step 1 of the chain: extract the braced region and JSON-parse it. -/
def bracedParse (s : String) : Option Val :=
  (bracedRegion s).bind loads

/-! Models of the regex helpers used by the fallback construction.  Each
scanning function tries every start position left to right, which is
exactly `re.search`'s leftmost-match rule for these patterns. -/

/-- The three-character-delimited literal `"S"` for a (regex-escaped)
name `S`. -/
def quotedLit (S : String) : List Char :=
  '"' :: S.toList ++ ['"']

/-- Match `\s*:\s*` at the head of the input. -/
def eatColon (cs : List Char) : Option (List Char) :=
  match skipWs cs with
  | ':' :: r => some (skipWs r)
  | _ => none

/-- Match `"([^"]+)"` at the head of the input: an opening quote, a
non-empty capture of non-quote characters (greedy), and the closing
quote. -/
def captureQuoted (cs : List Char) : Option (String × List Char) :=
  match cs with
  | '"' :: rest =>
      let cap := rest.takeWhile (fun c => c != '"')
      if cap.isEmpty then none
      else
        match rest.drop cap.length with
        | '"' :: r => some (cap.asString, r)
        | _ => none
  | _ => none

/-- Match `"F"\s*:\s*"([^"]+)"` at the head of the input, returning the
capture. -/
def fieldPatHere (F : String) (cs : List Char) : Option String :=
  match litHere (quotedLit F) cs with
  | some r =>
      match eatColon r with
      | some r2 => (captureQuoted r2).map (fun p => p.1)
      | none => none
  | none => none

/-- `re.search` for `"F"\s*:\s*"([^"]+)"`: first start position (left to
right) where the pattern matches. -/
def scanFieldPat (F : String) : List Char → Option String
  | [] => none
  | c :: rest =>
      match fieldPatHere F (c :: rest) with
      | some cap => some cap
      | none => scanFieldPat F rest

/-- `extract_simple_field` (lines 370-373): `re.search` of
`"F"\s*:\s*"([^"]+)"` over the whole text, defaulting when absent. -/
def extract_simple_field (s : String) (F : String) (dflt : String) : String :=
  (scanFieldPat F s.toList).getD dflt

/-- The lazy `[^\x7b]*?` part of the first `extract_section_field`
pattern: advance over non-brace characters until the field pattern
matches, stopping at an opening brace. -/
def lazyFieldNoBrace (F : String) : List Char → Option String
  | [] => none
  | c :: rest =>
      match fieldPatHere F (c :: rest) with
      | some cap => some cap
      | none => if c == '\x7b' then none else lazyFieldNoBrace F rest

/-- First `extract_section_field` pattern anchored at the head:
`"S"\s*:\s*\x7b[^\x7b]*?"F"\s*:\s*"([^"]+)"`. -/
def sectionTry1Here (S F : String) (cs : List Char) : Option String :=
  match litHere (quotedLit S) cs with
  | some r =>
      match eatColon r with
      | some r2 =>
          (match r2 with
          | '\x7b' :: r3 => lazyFieldNoBrace F r3
          | _ => none)
      | none => none
  | none => none

/-- `re.search` of the first `extract_section_field` pattern. -/
def sectionTry1 (S F : String) : List Char → Option String
  | [] => none
  | c :: rest =>
      match sectionTry1Here S F (c :: rest) with
      | some cap => some cap
      | none => sectionTry1 S F rest

/-- Rest of the input after the first occurrence of a literal. -/
def afterFirstLit (pat : List Char) : List Char → Option (List Char)
  | [] => none
  | c :: rest =>
      match litHere pat (c :: rest) with
      | some r => some r
      | none => afterFirstLit pat rest

/-- Second `extract_section_field` pattern:
`"S".*?"F"\s*:\s*"([^"]+)"` under DOTALL — the first field pattern
occurring after the first occurrence of the literal `"S"`. -/
def sectionTry2 (S F : String) (cs : List Char) : Option String :=
  (afterFirstLit (quotedLit S) cs).bind (fun r => scanFieldPat F r)

/-- The section-region pattern `"S"\s*:\s*\x7b([^\x7d]+)\x7d` anchored at
the head: captures the (non-empty) text between the opening brace and the
first closing brace. -/
def sectionRegionHere (S : String) (cs : List Char) : Option String :=
  match litHere (quotedLit S) cs with
  | some r =>
      match eatColon r with
      | some r2 =>
          (match r2 with
          | '\x7b' :: r3 =>
              let content := r3.takeWhile (fun c => c != '\x7d')
              if content.isEmpty then none
              else
                match r3.drop content.length with
                | '\x7d' :: _ => some content.asString
                | _ => none
          | _ => none)
      | none => none
  | none => none

/-- `re.search` of the section-region pattern. -/
def sectionRegion (S : String) : List Char → Option String
  | [] => none
  | c :: rest =>
      match sectionRegionHere S (c :: rest) with
      | some cap => some cap
      | none => sectionRegion S rest

/-- Third `extract_section_field` attempt: extract the section region,
then search the field pattern inside it. -/
def sectionTry3 (S F : String) (cs : List Char) : Option String :=
  (sectionRegion S cs).bind (fun content => scanFieldPat F content.toList)

/-- `extract_section_field` (lines 375-411): four attempts in order, then
the default.  The Python body is wrapped in `try`/`except` returning the
default, and the model is total. -/
def extract_section_field (s : String) (S F : String) (dflt : String) :
    String :=
  match sectionTry1 S F s.toList with
  | some cap => cap
  | none =>
    match sectionTry2 S F s.toList with
    | some cap => cap
    | none =>
      match sectionTry3 S F s.toList with
      | some cap => cap
      | none =>
        match scanFieldPat F s.toList with
        | some cap => cap
        | none => dflt

/-- One match of the `re.findall` pattern
`"([^"]+)"\s*:\s*\x7b([^\x7d]+)\x7d` anchored at the head: a quoted
non-empty section name, `\s*:\s*`, and a braced non-empty region up to the
first closing brace.  Returns the two captures and the rest of the input
after the match. -/
def sectionPairHere (cs : List Char) : Option ((String × String) × List Char) :=
  match cs with
  | '"' :: rest =>
      let name := rest.takeWhile (fun c => c != '"')
      if name.isEmpty then none
      else
        match rest.drop name.length with
        | '"' :: r2 =>
            (match eatColon r2 with
            | some r3 =>
                (match r3 with
                | '\x7b' :: r4 =>
                    let content := r4.takeWhile (fun c => c != '\x7d')
                    if content.isEmpty then none
                    else
                      match r4.drop content.length with
                      | '\x7d' :: r5 =>
                          some ((name.asString, content.asString), r5)
                      | _ => none
                | _ => none)
            | none => none)
        | _ => none
  | _ => none

/-- `re.findall` scan for the section pattern: non-overlapping matches,
left to right, resuming after each match.  Fuel-bounded; the callers pass
fuel larger than the input length, which bounds the iteration count. -/
def findAllSectionsGo : Nat → List Char → List (String × String)
  | 0, _ => []
  | _, [] => []
  | f + 1, c :: rest =>
      match sectionPairHere (c :: rest) with
      | some (p, r5) => p :: findAllSectionsGo f r5
      | none => findAllSectionsGo f rest

/-- One match of the `re.findall` field pattern
`"([^"]+)"\s*:\s*"([^"]+)"` anchored at the head. -/
def fieldPairHere (cs : List Char) : Option ((String × String) × List Char) :=
  match captureQuoted cs with
  | some (f, r) =>
      (match eatColon r with
      | some r2 =>
          (match captureQuoted r2 with
          | some (v, r3) => some ((f, v), r3)
          | none => none)
      | none => none)
  | none => none

/-- `re.findall` scan for the field pattern. -/
def findAllFieldsGo : Nat → List Char → List (String × String)
  | 0, _ => []
  | _, [] => []
  | f + 1, c :: rest =>
      match fieldPairHere (c :: rest) with
      | some (p, r3) => p :: findAllFieldsGo f r3
      | none => findAllFieldsGo f rest

/-- Python dict comprehension over captured pairs (later duplicate keys
win). -/
def mkStrDict (ps : List (String × String)) : List (String × String) :=
  ps.foldl (fun d p => dictInsert d p.1 p.2) []

/-- `extract_all_sections` (lines 418-433): find every section block, and
for each section the dict of its quoted fields; `all_sections` is a dict,
so a later duplicate section name overwrites an earlier one. -/
def extract_all_sections (s : String) :
    List (String × List (String × String)) :=
  let cs := s.toList
  let secs := findAllSectionsGo (cs.length + 1) cs
  secs.foldl
    (fun acc p =>
      dictInsert acc p.1
        (mkStrDict (findAllFieldsGo (p.2.length + 1) p.2.toList)))
    []

/-- The four required assessment sections checked at line 443. -/
def required_sections : List String :=
  ["Signal Strength", "Innovation Index", "Market Pulse", "Thesis Fit Score"]

/-- The branch condition for the spread construction (lines 439-455):
`all_sections` is non-empty and contains all four required sections.  When
false the manual construction at lines 462-499 runs instead. -/
def sectionsComplete (s : String) : Bool :=
  let as := extract_all_sections s
  (!as.isEmpty) && required_sections.all (fun k => (dictGet as k).isSome)

/-- A section dict of extracted string fields as a `Val`. -/
def strFieldsToVal (fs : List (String × String)) : Val :=
  .vObj (fs.map (fun p => (p.1, Val.vStr p.2)))

/-- The manual fallback construction (lines 463-499): every required
top-level section and sub-field, each filled by `extract_section_field`
with the fixed fallback default. -/
def manualDoc (s : String) (startup_name final_recommendation : String) :
    Val :=
  .vObj [
    ("Executive Summary", .vStr startup_name),
    ("Signal Strength", .vObj [
      ("Problem Overview", .vStr (extract_section_field s ("Signal Strength")
        ("Problem Overview") ("Unable to extract"))),
      ("Validation & Supporting Data", .vStr (extract_section_field s
        ("Signal Strength") ("Validation & Supporting Data")
        ("Unable to extract"))),
      ("External Research", .vStr (extract_section_field s
        ("Signal Strength") ("External Research") ("Unable to extract"))),
      ("Data Matching", .vStr (extract_section_field s ("Signal Strength")
        ("Data Matching") ("Unable to extract"))),
      ("Conclusion", .vStr (extract_section_field s ("Signal Strength")
        ("Conclusion") ("Unable to extract")))]),
    ("Innovation Index", .vObj [
      ("Solution Overview", .vStr (extract_section_field s
        ("Innovation Index") ("Solution Overview") ("Unable to extract"))),
      ("Technology & Differentiation", .vStr (extract_section_field s
        ("Innovation Index") ("Technology & Differentiation")
        ("Unable to extract"))),
      ("MVP Stage", .vStr (extract_section_field s ("Innovation Index")
        ("MVP Stage") ("Unable to extract"))),
      ("Competitive Edge", .vStr (extract_section_field s
        ("Innovation Index") ("Competitive Edge") ("Unable to extract"))),
      ("External Benchmarks", .vStr (extract_section_field s
        ("Innovation Index") ("External Benchmarks") ("Unable to extract"))),
      ("Conclusion", .vStr (extract_section_field s ("Innovation Index")
        ("Conclusion") ("Unable to extract")))]),
    ("Market Pulse", .vObj [
      ("Market Opportunity", .vStr (extract_section_field s ("Market Pulse")
        ("Market Opportunity") ("Unable to extract"))),
      ("TAM/SAM/SOM", .vStr (extract_section_field s ("Market Pulse")
        ("TAM/SAM/SOM") ("Unable to extract"))),
      ("Growth Trends", .vStr (extract_section_field s ("Market Pulse")
        ("Growth Trends") ("Unable to extract"))),
      ("Business Model & Traction", .vStr (extract_section_field s
        ("Market Pulse") ("Business Model & Traction")
        ("Unable to extract"))),
      ("Revenue Model", .vStr (extract_section_field s ("Market Pulse")
        ("Revenue Model") ("Unable to extract"))),
      ("Financial Metrics", .vStr (extract_section_field s ("Market Pulse")
        ("Financial Metrics") ("Unable to extract"))),
      ("External Validation", .vStr (extract_section_field s
        ("Market Pulse") ("External Validation") ("Unable to extract"))),
      ("Conclusion", .vStr (extract_section_field s ("Market Pulse")
        ("Conclusion") ("Unable to extract")))]),
    ("Thesis Fit Score", .vObj [
      ("Investor Criteria & Match Breakdown", .vStr (extract_section_field s
        ("Thesis Fit Score") ("Investor Criteria & Match Breakdown")
        ("Unable to extract"))),
      ("Industry Alignment", .vStr (extract_section_field s
        ("Thesis Fit Score") ("Industry Alignment") ("Unable to extract"))),
      ("Geographical & Stage Fit", .vStr (extract_section_field s
        ("Thesis Fit Score") ("Geographical & Stage Fit")
        ("Unable to extract"))),
      ("Funding & Exit", .vStr (extract_section_field s ("Thesis Fit Score")
        ("Funding & Exit") ("Unable to extract"))),
      ("Technology & Business Model", .vStr (extract_section_field s
        ("Thesis Fit Score") ("Technology & Business Model")
        ("Unable to extract"))),
      ("Overall Fit Score", .vStr (extract_section_field s
        ("Thesis Fit Score") ("Overall Fit Score") ("Unable to extract")))]),
    ("Final Recommendation", .vStr final_recommendation)]

/-- The regex-fallback document (lines 370-499): extract the startup name
and final recommendation, scan for whole sections, and either spread the
found sections (when all four required ones are present) or run the manual
field-by-field construction. -/
def fallbackDoc (s : String) : Val :=
  let startup_name := extract_simple_field s ("Executive Summary")
    ("Unknown Startup")
  let final_recommendation := extract_simple_field s ("Final Recommendation")
    ("Unable to extract final recommendation")
  if sectionsComplete s then
    .vObj (dictInsert
      ((extract_all_sections s).foldl
        (fun d p => dictInsert d p.1 (strFieldsToVal p.2))
        [("Executive Summary", .vStr startup_name)])
      ("Final Recommendation") (.vStr final_recommendation))
  else manualDoc s startup_name final_recommendation

/-- The full result-processing chain of `generate_executive_summary`
(lines 344-503): braced-region parse first, then whole-text parse, then
the regex fallback.  Total: no step raises past the chain. -/
def processResult (s : String) : Val :=
  match bracedParse s with
  | some j => j
  | none =>
    match loads s with
    | some j => j
    | none => fallbackDoc s

/-- A present field holding a string value. -/
def isStrAt (fs : List (String × Val)) (k : String) : Bool :=
  match dictGet fs k with
  | some (.vStr _) => true
  | _ => false

/-- A present section holding a dict in which every listed sub-field is a
populated string. -/
def sectionOk (fs : List (String × Val)) (sec : String)
    (subs : List String) : Bool :=
  match dictGet fs sec with
  | some (.vObj g) => subs.all (fun k => isStrAt g k)
  | _ => false

/-- Schema completeness of a returned document: every required top-level
section is present, the two scalar sections hold strings, and every
required sub-field of the four assessment sections is a string (extracted
content or the fallback marker — in particular never absent and never
null). -/
def requiredComplete (v : Val) : Bool :=
  match v with
  | .vObj fs =>
      isStrAt fs ("Executive Summary") &&
      isStrAt fs ("Final Recommendation") &&
      sectionOk fs ("Signal Strength")
        ["Problem Overview", "Validation & Supporting Data",
         "External Research", "Data Matching", "Conclusion"] &&
      sectionOk fs ("Innovation Index")
        ["Solution Overview", "Technology & Differentiation", "MVP Stage",
         "Competitive Edge", "External Benchmarks", "Conclusion"] &&
      sectionOk fs ("Market Pulse")
        ["Market Opportunity", "TAM/SAM/SOM", "Growth Trends",
         "Business Model & Traction", "Revenue Model", "Financial Metrics",
         "External Validation", "Conclusion"] &&
      sectionOk fs ("Thesis Fit Score")
        ["Investor Criteria & Match Breakdown", "Industry Alignment",
         "Geographical & Stage Fit", "Funding & Exit",
         "Technology & Business Model", "Overall Fit Score"]
  | _ => false

/-! ## `orchestrator.py`: stage definitions, scheduler, aggregator -/

/-- One entry of `AgentOrchestrator.agent_configs`. -/
structure AgentConfig where
  name : String
  filename : String
  function_name : String
  parallel : Bool
  input_key : String
  output_key : String
deriving DecidableEq, Repr

/-- The fixed stage definitions installed by `AgentOrchestrator.__init__`
(lines 34-72). -/
def agent_configs : List AgentConfig :=
  [⟨"Investment Settings Agent", "inestment_settings_agent.py",
    "generate_profile_summary", true, "investor_id", "investor_settings"⟩,
   ⟨"Pitch Deck Processing Agent", "pitch_deck_processing_agent.py",
    "process_pitch_deck", true, "pitch_id", "pitch_processing"⟩,
   ⟨"Thesis Matching Agent", "thesis_matching_agent.py",
    "generate_investor_thesis_matching", false, "pitch_id",
    "thesis_matching"⟩,
   ⟨"Investment Summary Agent", "investment_summary_agent.py",
    "generate_executive_summary", false, "pitch_id", "investment_summary"⟩]

/-- The construction-time validation loop of `__init__` (lines 74-79): for
each configured stage, check that its module file exists, and raise
`FileNotFoundError` otherwise.  This is the only validation `__init__`
performs.  (The loop raises at the first missing file; the model collapses
the error messages, which does not affect success/failure.)  `fs` abstracts
`os.path.exists` over the working directory. -/
def initValidate (cfgs : List AgentConfig) (fs : String → Bool) :
    Except String Unit :=
  if cfgs.all (fun c => fs c.filename) then Except.ok ()
  else Except.error ("Agent module not found")

/-- The execution context: a Python dict from key to value. -/
def Ctx : Type := List (String × Val)

/-- `context.get(k)`: `None` both when the key is absent and when the
stored value is `None` — the code cannot tell the two apart. -/
def ctxGetV (ctx : Ctx) (k : String) : Val :=
  (dictGet ctx k).getD .vNull

/-- `context.get(k, d)`. -/
def ctxGetD (ctx : Ctx) (k : String) (d : Val) : Val :=
  (dictGet ctx k).getD d

/-- A stage handler environment: what calling `func(input_value)` does for
the function of each stage, keyed by function name.  A handler is an
opaque external call that either returns a value or raises. -/
def Handlers : Type := String → Val → Except String Val

/-- `isinstance(v, dict) and 'ThesisMatching' in v` (line 124). -/
def isDictWithThesisKey (v : Val) : Bool :=
  match v with
  | .vObj fs => (dictGet fs ("ThesisMatching")).isSome
  | _ => false

/-- `_run_module_function` (lines 99-147): choose the input value (the
`specific_input` override, or the context entry at the stage's declared
`input_key`); when the input is `None`, log and return `None` — which the
callers record as a success; otherwise invoke the handler, whose exception
(if any) is re-raised (line 147). -/
def runModule (config : AgentConfig) (context : Ctx)
    (specific_input : Option Val) (H : Handlers) : Except String Val :=
  let input_value : Val :=
    match specific_input with
    | some si =>
        if isDictWithThesisKey si then ctxGetV context ("pitch_id") else si
    | none => ctxGetV context config.input_key
  match input_value with
  | .vNull => Except.ok .vNull
  | v => H config.function_name v

/-- The result-collection loop of `run_parallel_agents` (lines 186-197),
iterating over futures in completion order: on success, write the result
into the shared context at the stage's `output_key`; on the first observed
failure, return `False` at once, leaving every write made so far in place
and discarding the remaining futures' results.  Each submitted stage reads
its input from the context as seeded at submission time (`ctx0`). -/
def runParGo (ctx0 : Ctx) (H : Handlers) :
    List AgentConfig → Ctx → Bool × Ctx
  | [], acc => (true, acc)
  | c :: rest, acc =>
      match runModule c ctx0 none H with
      | .error _ => (false, acc)
      | .ok v => runParGo ctx0 H rest (dictInsert acc c.output_key v)

/-- `run_parallel_agents` (lines 165-201), parameterised by the completion
order of the futures (`as_completed` yields them in an arbitrary
permutation of the submitted stages). -/
def runParallel (order : List AgentConfig) (ctx : Ctx) (H : Handlers) :
    Bool × Ctx :=
  runParGo ctx H order ctx

/-- The value a successful stage writes into the context (used to state
what the partial writes are). -/
def runOut (c : AgentConfig) (ctx0 : Ctx) (H : Handlers) : Val :=
  match runModule c ctx0 none H with
  | .ok v => v
  | .error _ => .vNull

/-! ## `combine_results` (lines 251-350)

The aggregation is modelled as an `Except`: Python raises exactly when the
normalized primary value is not a dict.  A primary that is (or JSON-parses
to) a truthy string/int/bool has no `.copy` attribute (`AttributeError` at
line 283); a truthy list copies fine but the first executed string-indexed
assignment — at the latest `combined_result["metadata"] = ...` at line
340 — raises `TypeError`.  The timestamp `time.strftime(...)` is passed in
explicitly as `now`. -/

/-- `context.get("investment_summary", \x7b\x7d)` (line 263). -/
def primaryRaw (ctx : Ctx) : Val :=
  ctxGetD ctx ("investment_summary") (.vObj [])

/-- Lines 266-274: a string primary is JSON-parsed; on failure it is
wrapped verbatim in the two-field structure. -/
def primaryParsed (ctx : Ctx) : Val :=
  match primaryRaw ctx with
  | .vStr s =>
      (match loads s with
      | some j => j
      | none =>
          .vObj [("Executive Summary", .vStr ("Investment Summary")),
                 ("Summary Text", .vStr s)])
  | v => v

/-- Lines 277-280: an empty/None primary is replaced by the placeholder. -/
def primaryNorm (ctx : Ctx) : Val :=
  let v := primaryParsed ctx
  if truthy v then v
  else .vObj [("Executive Summary", .vStr ("No detailed summary available"))]

/-- The three thesis-matching keys copied at lines 287-298. -/
def thesisKeys : List String :=
  ["ThesisMatching", "InvestmentSummary", "FinalInvestmentMatchAnalysis"]

/-- Lines 286-298: for each of the three keys, copy it from
`thesis_matching` only when the combined result does not already define it;
a falsy or non-dict `thesis_matching` is skipped entirely. -/
def addFromThesis (combined : List (String × Val)) (thesis : Val) :
    List (String × Val) :=
  match thesis with
  | .vObj tf =>
      if truthy (.vObj tf) then
        thesisKeys.foldl
          (fun acc k =>
            if (dictGet acc k).isNone && (dictGet tf k).isSome then
              dictInsert acc k ((dictGet tf k).getD .vNull)
            else acc)
          combined
      else combined
  | _ => combined

/-- Lines 305-316: the `pitch_analysis` value assembled from
`pitch_processing` (the first matching branch wins; any value shape is
taken verbatim from `pitch_deck_data`). -/
def pitchAnalysisOf (pp : List (String × Val)) : Val :=
  if (dictGet pp ("pitch_deck_data")).isSome then
    (dictGet pp ("pitch_deck_data")).getD .vNull
  else if (dictGet pp ("Signal Strength")).isSome then
    .vObj [("Signal Strength", (dictGet pp ("Signal Strength")).getD .vNull)]
  else if (dictGet pp ("Innovation Index")).isSome then
    .vObj [("Innovation Index",
      (dictGet pp ("Innovation Index")).getD .vNull)]
  else if (dictGet pp ("Market Pulse")).isSome then
    .vObj [("Market Pulse", (dictGet pp ("Market Pulse")).getD .vNull)]
  else .vObj []

/-- Lines 301-319: add a `PitchAnalysis` section only when absent and when
the assembled value is truthy; a falsy or non-dict `pitch_processing` is
skipped. -/
def addFromPitch (combined : List (String × Val)) (pp : Val) :
    List (String × Val) :=
  match pp with
  | .vObj ppf =>
      if truthy (.vObj ppf) && (dictGet combined ("PitchAnalysis")).isNone
      then
        let pa := pitchAnalysisOf ppf
        if truthy pa then dictInsert combined ("PitchAnalysis") pa
        else combined
      else combined
  | _ => combined

/-- Lines 326-334: the `investor_profile` dict assembled from
`investor_settings`. -/
def investorProfileOf (f : List (String × Val)) : List (String × Val) :=
  let prof1 : List (String × Val) :=
    if (dictGet f ("investor_id")).isSome then
      [("investor_id", (dictGet f ("investor_id")).getD .vNull)]
    else []
  if (dictGet f ("structured_data")).isSome then
    dictInsert prof1 ("preferences")
      ((dictGet f ("structured_data")).getD .vNull)
  else if (dictGet f ("full_text")).isSome then
    dictInsert prof1 ("summary") ((dictGet f ("full_text")).getD .vNull)
  else prof1

/-- Lines 322-337: assemble and add an `InvestorProfile` section only when
absent and non-empty; a falsy or non-dict `investor_settings` is
skipped. -/
def addFromInvestor (combined : List (String × Val)) (iv : Val) :
    List (String × Val) :=
  match iv with
  | .vObj f =>
      if truthy (.vObj f) && (dictGet combined ("InvestorProfile")).isNone
      then
        if truthy (.vObj (investorProfileOf f)) then
          dictInsert combined ("InvestorProfile") (.vObj (investorProfileOf f))
        else combined
      else combined
  | _ => combined

/-- The metadata block appended at lines 340-348, with the
`time.strftime` reading passed in as `now`. -/
def metaBlock (now : String) : Val :=
  .vObj [("processing_timestamp", .vStr now),
         ("agents_used", .vArr
           [.vStr ("Investment Settings Agent"),
            .vStr ("Pitch Deck Processing Agent"),
            .vStr ("Thesis Matching Agent"),
            .vStr ("Investment Summary Agent")])]

/-- `combine_results` (lines 251-350). -/
def combine_results (ctx : Ctx) (now : String) : Except String Val :=
  match primaryNorm ctx with
  | .vObj base =>
      let c1 := addFromThesis base (ctxGetD ctx ("thesis_matching") (.vObj []))
      let c2 := addFromPitch c1 (ctxGetD ctx ("pitch_processing") (.vObj []))
      let c3 := addFromInvestor c2
        (ctxGetD ctx ("investor_settings") (.vObj []))
      Except.ok (.vObj (dictInsert c3 ("metadata") (metaBlock now)))
  | .vArr _ =>
      Except.error ("TypeError: list indices must be integers, not str")
  | _ => Except.error ("AttributeError: object has no attribute copy")

/-- `run_sequential_agents` (lines 203-249), one step per sequential
stage: the previous stage's output is passed as `specific_input` to every
stage except the Investment Summary Agent (and except when it was `None`);
a raising stage returns `(False, None)`; after the loop the context is
folded by `combine_results`, whose own exception (unlike a stage failure)
propagates to the caller. -/
def runSeqGo (H : Handlers) (now : String) :
    List AgentConfig → Ctx → Val → Except String (Bool × Option Val)
  | [], ctx, _ =>
      (match combine_results ctx now with
      | .ok r => Except.ok (true, some r)
      | .error e => Except.error e)
  | c :: rest, ctx, last_output =>
      let si : Option Val :=
        if !(isNullB last_output) && c.name != "Investment Summary Agent"
        then some last_output else none
      match runModule c ctx si H with
      | .error _ => Except.ok (false, none)
      | .ok v => runSeqGo H now rest (dictInsert ctx c.output_key v) v

/-- `run_sequential_agents` entry point (`last_output` starts as `None`). -/
def run_sequential_agents (cfgs : List AgentConfig) (ctx : Ctx)
    (H : Handlers) (now : String) : Except String (Bool × Option Val) :=
  runSeqGo H now cfgs ctx .vNull

/-- The stages marked parallel (level 0). -/
def parallel_configs : List AgentConfig :=
  agent_configs.filter (fun c => c.parallel)

/-- The sequential stages, in declaration order. -/
def sequential_configs : List AgentConfig :=
  agent_configs.filter (fun c => !c.parallel)

/-- The context seeded by `orchestrate` (lines 363-366). -/
def initCtx (pitch_id investor_id : Val) : Ctx :=
  [("pitch_id", pitch_id), ("investor_id", investor_id)]

/-- `orchestrate` (lines 352-401), parameterised by the handler
environment `H`, the completion order `porder` of the parallel level's
futures, and the aggregation timestamp `now`.  On parallel failure it
returns `(False, None)` before any aggregation; on sequential success it
returns `(True, combine_results(context))`.  The Python `int` parameters
are modelled as `Val` because Python does not enforce the annotation. -/
def orchestrate (pitch_id investor_id : Val) (H : Handlers)
    (porder : List AgentConfig) (now : String) :
    Except String (Bool × Option Val) :=
  let context := initCtx pitch_id investor_id
  match runParallel porder context H with
  | (false, _) => Except.ok (false, none)
  | (true, ctx1) => run_sequential_agents sequential_configs ctx1 H now

/-! ## Helper lemmas -/

mutual

theorem Val.beq_iff : ∀ a b : Val, Val.beq a b = true ↔ a = b
  | .vNull, .vNull => by simp [Val.beq]
  | .vBool a, .vBool b => by simp [Val.beq]
  | .vInt a, .vInt b => by simp [Val.beq]
  | .vStr a, .vStr b => by simp [Val.beq]
  | .vArr xs, .vArr ys => by
      simp only [Val.beq, Val.beqList_iff xs ys, Val.vArr.injEq]
  | .vObj fs, .vObj gs => by
      simp only [Val.beq, Val.beqFields_iff fs gs, Val.vObj.injEq]
  | .vNull, .vBool _ | .vNull, .vInt _ | .vNull, .vStr _ | .vNull, .vArr _
  | .vNull, .vObj _ | .vBool _, .vNull | .vBool _, .vInt _ | .vBool _, .vStr _
  | .vBool _, .vArr _ | .vBool _, .vObj _ | .vInt _, .vNull | .vInt _, .vBool _
  | .vInt _, .vStr _ | .vInt _, .vArr _ | .vInt _, .vObj _ | .vStr _, .vNull
  | .vStr _, .vBool _ | .vStr _, .vInt _ | .vStr _, .vArr _ | .vStr _, .vObj _
  | .vArr _, .vNull | .vArr _, .vBool _ | .vArr _, .vInt _ | .vArr _, .vStr _
  | .vArr _, .vObj _ | .vObj _, .vNull | .vObj _, .vBool _ | .vObj _, .vInt _
  | .vObj _, .vStr _ | .vObj _, .vArr _ => by simp [Val.beq]

theorem Val.beqList_iff : ∀ xs ys : List Val, Val.beqList xs ys = true ↔ xs = ys
  | [], [] => by simp [Val.beqList]
  | a :: as, b :: bs => by
      simp [Val.beqList, Val.beq_iff a b, Val.beqList_iff as bs]
  | [], _ :: _ => by simp [Val.beqList]
  | _ :: _, [] => by simp [Val.beqList]

theorem Val.beqFields_iff :
    ∀ fs gs : List (String × Val), Val.beqFields fs gs = true ↔ fs = gs
  | [], [] => by simp [Val.beqFields]
  | (k, v) :: fs, (l, w) :: gs => by
      simp [Val.beqFields, Val.beq_iff v w, Val.beqFields_iff fs gs,
        and_assoc]
  | [], _ :: _ => by simp [Val.beqFields]
  | _ :: _, [] => by simp [Val.beqFields]

end

instance : DecidableEq Val :=
  fun a b => decidable_of_iff (Val.beq a b = true) (Val.beq_iff a b)

instance : DecidableEq Ctx := by
  unfold Ctx
  infer_instance

/-- Success test for the `Except` model of a possibly-raising call. -/
def isOkB {α : Type} (e : Except String α) : Bool :=
  match e with
  | .ok _ => true
  | .error _ => false

/-- Failure test for the `Except` model of a possibly-raising call. -/
def isErrB {α : Type} (e : Except String α) : Bool :=
  match e with
  | .ok _ => false
  | .error _ => true

/-- Shape test: is the value a Python dict. -/
def isObjB : Val → Bool
  | .vObj _ => true
  | _ => false

theorem dictGet_insert_ne {α : Type} (l : List (String × α)) (k k' : String)
    (v : α) (h : k ≠ k') : dictGet (dictInsert l k' v) k = dictGet l k := by
  have hks : ¬ k' = k := fun h' => h h'.symm
  induction l with
  | nil =>
      simp only [dictInsert, dictGet]
      rw [if_neg hks]
  | cons p rest ih =>
      simp only [dictInsert]
      by_cases hp : p.1 = k'
      · rw [if_pos hp]
        simp only [dictGet]
        have hpk : ¬ p.1 = k := by rw [hp]; exact hks
        rw [if_neg hks, if_neg hpk]
      · rw [if_neg hp]
        simp only [dictGet]
        by_cases hk2 : p.1 = k
        · rw [if_pos hk2, if_pos hk2]
        · rw [if_neg hk2, if_neg hk2]
          exact ih

theorem dictGet_mono_of_isNone_guard {k k' : String} {v : Val} {x : Val}
    {acc : List (String × Val)} (hsome : dictGet acc k = some v)
    (hnone : (dictGet acc k').isNone = true) :
    dictGet (dictInsert acc k' x) k = some v := by
  have hne : k ≠ k' := by
    intro h
    rw [h] at hsome
    rw [hsome] at hnone
    simp [Option.isNone] at hnone
  rw [dictGet_insert_ne _ _ _ _ hne]
  exact hsome

theorem foldl_guard_pres (p : String → Bool) (f : String → Val) (k : String)
    (v : Val) :
    ∀ (ks : List String) (acc : List (String × Val)),
      dictGet acc k = some v →
      dictGet
        (ks.foldl
          (fun a kk =>
            if (dictGet a kk).isNone && p kk then dictInsert a kk (f kk)
            else a)
          acc) k = some v := by
  intro ks
  induction ks with
  | nil => intro acc h; simpa using h
  | cons kk rest ih =>
      intro acc h
      simp only [List.foldl]
      by_cases hc : ((dictGet acc kk).isNone && p kk) = true
      · rw [if_pos hc]
        have hnone : (dictGet acc kk).isNone = true := by
          exact (Bool.and_eq_true _ _).mp hc |>.1
        exact ih _ (dictGet_mono_of_isNone_guard h hnone)
      · rw [if_neg hc]
        exact ih _ h

theorem addFromThesis_pres {c : List (String × Val)} {th : Val} {k : String}
    {v : Val} (h : dictGet c k = some v) :
    dictGet (addFromThesis c th) k = some v := by
  cases th with
  | vObj tf =>
      simp only [addFromThesis]
      by_cases ht : truthy (.vObj tf) = true
      · rw [if_pos ht]
        exact foldl_guard_pres (fun kk => (dictGet tf kk).isSome)
          (fun kk => (dictGet tf kk).getD .vNull) k v thesisKeys c h
      · rw [if_neg ht]; exact h
  | vNull => exact h
  | vBool b => exact h
  | vInt n => exact h
  | vStr s => exact h
  | vArr xs => exact h

theorem addFromPitch_pres {c : List (String × Val)} {pp : Val} {k : String}
    {v : Val} (h : dictGet c k = some v) :
    dictGet (addFromPitch c pp) k = some v := by
  cases pp with
  | vObj ppf =>
      simp only [addFromPitch]
      by_cases hc :
          (truthy (.vObj ppf) && (dictGet c ("PitchAnalysis")).isNone) = true
      · rw [if_pos hc]
        have hnone : (dictGet c ("PitchAnalysis")).isNone = true :=
          ((Bool.and_eq_true _ _).mp hc).2
        by_cases hpa : truthy (pitchAnalysisOf ppf) = true
        · rw [if_pos hpa]
          exact dictGet_mono_of_isNone_guard h hnone
        · rw [if_neg hpa]; exact h
      · rw [if_neg hc]; exact h
  | vNull => exact h
  | vBool b => exact h
  | vInt n => exact h
  | vStr s => exact h
  | vArr xs => exact h

theorem addFromInvestor_pres {c : List (String × Val)} {iv : Val}
    {k : String} {v : Val} (h : dictGet c k = some v) :
    dictGet (addFromInvestor c iv) k = some v := by
  cases iv with
  | vObj f =>
      simp only [addFromInvestor]
      by_cases hc :
          (truthy (.vObj f) && (dictGet c ("InvestorProfile")).isNone) = true
      · rw [if_pos hc]
        have hnone : (dictGet c ("InvestorProfile")).isNone = true :=
          ((Bool.and_eq_true _ _).mp hc).2
        by_cases hpr : truthy (.vObj (investorProfileOf f)) = true
        · rw [if_pos hpr]
          exact dictGet_mono_of_isNone_guard h hnone
        · rw [if_neg hpr]; exact h
      · rw [if_neg hc]; exact h
  | vNull => exact h
  | vBool b => exact h
  | vInt n => exact h
  | vStr s => exact h
  | vArr xs => exact h

/-- Remove a top-level key (used only to state what two reports agree on
outside the metadata block). -/
def dictRemove {α : Type} (fields : List (String × α)) (k : String) :
    List (String × α) :=
  fields.filter (fun p => p.1 != k)

/-- Erase the top-level `metadata` block of a report. -/
def stripMetaTop : Val → Val
  | .vObj fs => .vObj (dictRemove fs ("metadata"))
  | v => v

theorem dictRemove_insert_self {α : Type} (l : List (String × α))
    (k : String) (v : α) : dictRemove (dictInsert l k v) k = dictRemove l k := by
  induction l with
  | nil => simp [dictInsert, dictRemove]
  | cons p rest ih =>
      by_cases hp : p.1 = k
      · simp [dictInsert, hp, dictRemove]
      · simp only [dictInsert, if_neg hp]
        simp only [dictRemove, List.filter] at ih ⊢
        rw [ih]

/-- C6 (amended): `combine_results` returns normally exactly when the
normalized primary value is a dict — in particular for every shape of the
secondary context values (malformed secondaries are skipped, never fatal);
a primary that is (or parses to) a truthy non-dict value makes it raise. -/
theorem combine_results_ok_iff_primary_dict (ctx : Ctx) (now : String) :
    isOkB (combine_results ctx now) = isObjB (primaryNorm ctx) := by
  cases h : primaryNorm ctx with
  | vObj base => simp [combine_results, h, isOkB, isObjB]
  | vNull => simp [combine_results, h, isOkB, isObjB]
  | vBool b => simp [combine_results, h, isOkB, isObjB]
  | vInt n => simp [combine_results, h, isOkB, isObjB]
  | vStr s => simp [combine_results, h, isOkB, isObjB]
  | vArr xs => simp [combine_results, h, isOkB, isObjB]

/-- C6 witness: the theorem applied at a context whose primary value is
the integer 5, where aggregation raises (`AttributeError`). -/
theorem combine_results_ok_iff_primary_dict_witness :
    isOkB (combine_results [("investment_summary", Val.vInt 5)] ("T"))
      = isObjB (primaryNorm [("investment_summary", Val.vInt 5)]) ∧
    isOkB (combine_results [("investment_summary", Val.vInt 5)] ("T"))
      = false :=
  ⟨combine_results_ok_iff_primary_dict
      [("investment_summary", Val.vInt 5)] ("T"), by decide⟩

/-- C6 counterexample: `combine_results` raises on a context whose
`investment_summary` value is the number 5 (`5 .copy()` does not exist),
contradicting "returns normally and never raises for every context value of
any shape". -/
theorem combine_results_raises_on_int_primary :
    combine_results [("investment_summary", Val.vInt 5)] ("T") =
      Except.error ("AttributeError: object has no attribute copy") ∧
    combine_results [("investment_summary", Val.vArr [Val.vInt 1])] ("T") =
      Except.error ("TypeError: list indices must be integers, not str") := by
  constructor
  · rfl
  · rfl

/-- C5 (amended): two `combine_results` calls on the same context agree on
everything outside the top-level `metadata` block; only the metadata block
(whose `processing_timestamp` is the clock reading of the call) can
differ. -/
theorem combine_results_stable_outside_metadata (ctx : Ctx)
    (t1 t2 : String) :
    Except.map stripMetaTop (combine_results ctx t1) =
      Except.map stripMetaTop (combine_results ctx t2) := by
  cases h : primaryNorm ctx with
  | vObj base =>
      simp [combine_results, h, Except.map, stripMetaTop,
        dictRemove_insert_self]
  | vNull => simp [combine_results, h]
  | vBool b => simp [combine_results, h]
  | vInt n => simp [combine_results, h]
  | vStr s => simp [combine_results, h]
  | vArr xs => simp [combine_results, h]

/-- C5 witness: the theorem applied at the empty context and two distinct
timestamps. -/
theorem combine_results_stable_outside_metadata_witness :
    Except.map stripMetaTop (combine_results [] ("2024-01-01 00:00:00")) =
      Except.map stripMetaTop (combine_results [] ("2024-01-02 00:00:00")) :=
  combine_results_stable_outside_metadata [] ("2024-01-01 00:00:00")
    ("2024-01-02 00:00:00")

/-- C5 counterexample: two calls on the same (empty) context with different
clock readings give reports that are not bit-identical — they differ in
`metadata.processing_timestamp`. -/
theorem combine_results_not_idempotent :
    combine_results [] ("2024-01-01 00:00:00") =
      Except.ok (.vObj
        [("Executive Summary", .vStr ("No detailed summary available")),
         ("metadata", metaBlock ("2024-01-01 00:00:00"))]) ∧
    combine_results [] ("2024-01-02 00:00:00") =
      Except.ok (.vObj
        [("Executive Summary", .vStr ("No detailed summary available")),
         ("metadata", metaBlock ("2024-01-02 00:00:00"))]) ∧
    (Val.vObj
        [("Executive Summary", .vStr ("No detailed summary available")),
         ("metadata", metaBlock ("2024-01-01 00:00:00"))] ≠
      Val.vObj
        [("Executive Summary", .vStr ("No detailed summary available")),
         ("metadata", metaBlock ("2024-01-02 00:00:00"))]) := by
  refine ⟨rfl, rfl, ?_⟩
  decide

/-- C3 (amended): every top-level section of the normalized primary value
other than `metadata` keeps exactly the primary value's content in the
aggregated report — the secondary merges never overwrite an existing
section; the `metadata` key alone is unconditionally overwritten by the
standard metadata block at line 340. -/
theorem combine_results_no_overwrite (ctx : Ctx) (now : String)
    (base : List (String × Val)) (k : String) (v : Val)
    (hbase : primaryNorm ctx = .vObj base) (hk : k ≠ "metadata")
    (hv : dictGet base k = some v) :
    ∃ rep, combine_results ctx now = Except.ok (.vObj rep) ∧
      dictGet rep k = some v := by
  have h3 :
      dictGet
        (addFromInvestor
          (addFromPitch
            (addFromThesis base (ctxGetD ctx ("thesis_matching") (.vObj [])))
            (ctxGetD ctx ("pitch_processing") (.vObj [])))
          (ctxGetD ctx ("investor_settings") (.vObj []))) k = some v :=
    addFromInvestor_pres (addFromPitch_pres (addFromThesis_pres hv))
  refine ⟨dictInsert
      (addFromInvestor
        (addFromPitch
          (addFromThesis base (ctxGetD ctx ("thesis_matching") (.vObj [])))
          (ctxGetD ctx ("pitch_processing") (.vObj [])))
        (ctxGetD ctx ("investor_settings") (.vObj [])))
      ("metadata") (metaBlock now), ?_, ?_⟩
  · simp [combine_results, hbase]
  · rw [dictGet_insert_ne _ _ _ _ hk]
    exact h3

/-- C3 witness: the theorem applied to a context whose primary value
defines an `Executive Summary` section, which reappears verbatim in the
report. -/
theorem combine_results_no_overwrite_witness :
    ∃ rep,
      combine_results
        [("investment_summary",
          Val.vObj [("Executive Summary", Val.vStr ("Acme"))])] ("T") =
        Except.ok (.vObj rep) ∧
      dictGet rep ("Executive Summary") = some (Val.vStr ("Acme")) :=
  combine_results_no_overwrite
    [("investment_summary", Val.vObj [("Executive Summary", Val.vStr ("Acme"))])]
    ("T") [("Executive Summary", Val.vStr ("Acme"))]
    ("Executive Summary") (Val.vStr ("Acme")) (by decide) (by decide) (by decide)

/-- C3 counterexample: a primary value that defines a top-level `metadata`
section does not keep it — `combine_results` replaces it with the standard
metadata block, so "every top-level section name defined in the primary
value maps to exactly the primary value's content" is false. -/
theorem combine_results_overwrites_metadata :
    combine_results
      [("investment_summary", Val.vObj [("metadata", Val.vStr ("original"))])]
      ("2024") =
      Except.ok (.vObj [("metadata", metaBlock ("2024"))]) ∧
    metaBlock ("2024") ≠ Val.vStr ("original") := by
  refine ⟨rfl, ?_⟩
  decide

/-- C7 (amended): a string primary that fails to JSON-parse is wrapped
verbatim — the report maps `Summary Text` to the exact string (and also
carries `Executive Summary = "Investment Summary"` plus the metadata
block), rather than discarding it; the report is not the bare singleton
`\x7b"Summary Text": s\x7d` the claim describes. -/
theorem combine_results_wraps_unparsed_string (s : String) (ctx : Ctx)
    (now : String)
    (hget : dictGet ctx ("investment_summary") = some (.vStr s))
    (hparse : loads s = none) :
    ∃ rep, combine_results ctx now = Except.ok (.vObj rep) ∧
      dictGet rep ("Summary Text") = some (.vStr s) ∧
      dictGet rep ("Executive Summary") =
        some (.vStr ("Investment Summary")) := by
  have hnorm : primaryNorm ctx =
      .vObj [("Executive Summary", .vStr ("Investment Summary")),
             ("Summary Text", .vStr s)] := by
    simp [primaryNorm, primaryParsed, primaryRaw, ctxGetD, hget, hparse,
      truthy]
  have hst : dictGet
      [("Executive Summary", Val.vStr ("Investment Summary")),
       ("Summary Text", Val.vStr s)] ("Summary Text") = some (.vStr s) := by
    simp [dictGet]
  have hes : dictGet
      [("Executive Summary", Val.vStr ("Investment Summary")),
       ("Summary Text", Val.vStr s)] ("Executive Summary") =
      some (Val.vStr ("Investment Summary")) := by
    simp [dictGet]
  have h3st :
      dictGet
        (addFromInvestor
          (addFromPitch
            (addFromThesis
              [("Executive Summary", Val.vStr ("Investment Summary")),
               ("Summary Text", Val.vStr s)]
              (ctxGetD ctx ("thesis_matching") (.vObj [])))
            (ctxGetD ctx ("pitch_processing") (.vObj [])))
          (ctxGetD ctx ("investor_settings") (.vObj []))) ("Summary Text") =
        some (Val.vStr s) :=
    addFromInvestor_pres (addFromPitch_pres (addFromThesis_pres hst))
  have h3es :
      dictGet
        (addFromInvestor
          (addFromPitch
            (addFromThesis
              [("Executive Summary", Val.vStr ("Investment Summary")),
               ("Summary Text", Val.vStr s)]
              (ctxGetD ctx ("thesis_matching") (.vObj [])))
            (ctxGetD ctx ("pitch_processing") (.vObj [])))
          (ctxGetD ctx ("investor_settings") (.vObj [])))
        ("Executive Summary") = some (Val.vStr ("Investment Summary")) :=
    addFromInvestor_pres (addFromPitch_pres (addFromThesis_pres hes))
  refine ⟨dictInsert
      (addFromInvestor
        (addFromPitch
          (addFromThesis
            [("Executive Summary", Val.vStr ("Investment Summary")),
             ("Summary Text", Val.vStr s)]
            (ctxGetD ctx ("thesis_matching") (.vObj [])))
          (ctxGetD ctx ("pitch_processing") (.vObj [])))
        (ctxGetD ctx ("investor_settings") (.vObj [])))
      ("metadata") (metaBlock now), ?_, ?_, ?_⟩
  · simp [combine_results, hnorm]
  · rw [dictGet_insert_ne _ _ _ _ (by decide : ("Summary Text" : String) ≠ "metadata")]
    exact h3st
  · rw [dictGet_insert_ne _ _ _ _ (by decide : ("Executive Summary" : String) ≠ "metadata")]
    exact h3es

/-- C7 witness: the theorem applied at the unparseable primary string
`"not json"`. -/
theorem combine_results_wraps_unparsed_string_witness :
    ∃ rep,
      combine_results [("investment_summary", Val.vStr ("not json"))] ("T") =
        Except.ok (.vObj rep) ∧
      dictGet rep ("Summary Text") = some (Val.vStr ("not json")) ∧
      dictGet rep ("Executive Summary") =
        some (Val.vStr ("Investment Summary")) :=
  combine_results_wraps_unparsed_string ("not json")
    [("investment_summary", Val.vStr ("not json"))] ("T") (by decide)
    (by decide)

/-- C7 counterexample: for the unparseable primary string `"not json"` the
report is not the bare `\x7b"Summary Text": <string>\x7d` the claim
states — it also carries the `Executive Summary` marker and the metadata
block. -/
theorem combine_results_wrap_not_bare_singleton :
    combine_results [("investment_summary", Val.vStr ("not json"))] ("T") =
      Except.ok (.vObj
        [("Executive Summary", .vStr ("Investment Summary")),
         ("Summary Text", .vStr ("not json")),
         ("metadata", metaBlock ("T"))]) ∧
    (Val.vObj
        [("Executive Summary", .vStr ("Investment Summary")),
         ("Summary Text", .vStr ("not json")),
         ("metadata", metaBlock ("T"))] ≠
      Val.vObj [("Summary Text", .vStr ("not json"))]) := by
  refine ⟨rfl, ?_⟩
  decide

/-! ## Scheduler theorems -/

theorem runParGo_any_error (ctx0 : Ctx) (H : Handlers) :
    ∀ (order : List AgentConfig) (acc : Ctx),
      (∃ c ∈ order, isErrB (runModule c ctx0 none H) = true) →
      (runParGo ctx0 H order acc).1 = false := by
  intro order
  induction order with
  | nil =>
      intro acc h
      rcases h with ⟨c, hc, _⟩
      exact absurd hc (List.not_mem_nil c)
  | cons c' rest ih =>
      intro acc h
      simp only [runParGo]
      cases hm : runModule c' ctx0 none H with
      | error e => rfl
      | ok v =>
          rcases h with ⟨c, hc, herr⟩
          rcases List.mem_cons.mp hc with hc1 | hc2
          · rw [hc1] at herr
            rw [hm] at herr
            simp [isErrB] at herr
          · exact ih _ ⟨c, hc2, herr⟩

/-- C2: if any stage of the parallel level fails (its handler raises),
`orchestrate` returns `(False, None)` — the sequential levels and the
aggregator (`combine_results`) are never reached, no report value is
produced, and the result is the same for every aggregation timestamp. -/
theorem orchestrate_parallel_fail_fast (pitch_id investor_id : Val)
    (H : Handlers) (porder : List AgentConfig) (now : String)
    (hperm : porder.Perm parallel_configs)
    (hfail : ∃ c ∈ porder,
      isErrB (runModule c (initCtx pitch_id investor_id) none H) = true) :
    orchestrate pitch_id investor_id H porder now = Except.ok (false, none) := by
  have hfalse :
      (runParallel porder (initCtx pitch_id investor_id) H).1 = false :=
    runParGo_any_error _ H porder _ hfail
  rcases hrp : runParallel porder (initCtx pitch_id investor_id) H with ⟨b, ctx'⟩
  rw [hrp] at hfalse
  simp only at hfalse
  subst hfalse
  simp [orchestrate, hrp]

/-- The handler environment of the C2 witness: the pitch-deck stage
raises, its sibling succeeds. -/
def handlersC2 : Handlers := fun fn _ =>
  if fn == "process_pitch_deck" then Except.error ("boom")
  else Except.ok (.vStr ("ok"))

/-- C2 witness: the theorem applied with the pitch-deck stage raising;
`orchestrate` yields `(False, None)`. -/
theorem orchestrate_parallel_fail_fast_witness :
    orchestrate (.vInt 1) (.vInt 2) handlersC2 parallel_configs ("T") =
      Except.ok (false, none) :=
  orchestrate_parallel_fail_fast (.vInt 1) (.vInt 2) handlersC2
    parallel_configs ("T") (List.Perm.refl _)
    ⟨⟨"Pitch Deck Processing Agent", "pitch_deck_processing_agent.py",
      "process_pitch_deck", true, "pitch_id", "pitch_processing"⟩,
     by decide, by decide⟩

theorem runParGo_prefix_writes (ctx0 : Ctx) (H : Handlers)
    (c : AgentConfig) (post : List AgentConfig)
    (hc : isErrB (runModule c ctx0 none H) = true) :
    ∀ (pre : List AgentConfig) (acc : Ctx),
      (∀ p ∈ pre, isErrB (runModule p ctx0 none H) = false) →
      runParGo ctx0 H (pre ++ c :: post) acc =
        (false,
          pre.foldl (fun a p => dictInsert a p.output_key (runOut p ctx0 H))
            acc) := by
  intro pre
  induction pre with
  | nil =>
      intro acc _
      simp only [List.nil_append, List.foldl, runParGo]
      cases hm : runModule c ctx0 none H with
      | error e => rfl
      | ok v => rw [hm] at hc; simp [isErrB] at hc
  | cons p rest ih =>
      intro acc hok
      have hp : isErrB (runModule p ctx0 none H) = false :=
        hok p (List.mem_cons_self p rest)
      simp only [List.cons_append, runParGo, List.foldl]
      cases hm : runModule p ctx0 none H with
      | error e => rw [hm] at hp; simp [isErrB] at hp
      | ok v =>
          have hout : runOut p ctx0 H = v := by
            simp [runOut, hm]
          rw [hout]
          exact ih _ (fun q hq => hok q (List.mem_cons_of_mem p hq))

/-- C10: when a parallel stage fails, every sibling whose result was
collected before the failure has already been written into the shared
context at its `output_key`, and those writes are not rolled back — the
loop returns `False` with the context exactly as extended by the
successful prefix.  (Only the fact that `orchestrate` then skips
aggregation keeps those values out of any report.) -/
theorem run_parallel_partial_writes (ctx0 : Ctx) (H : Handlers)
    (pre : List AgentConfig) (c : AgentConfig) (post : List AgentConfig)
    (hok : ∀ p ∈ pre, isErrB (runModule p ctx0 none H) = false)
    (hc : isErrB (runModule c ctx0 none H) = true) :
    runParallel (pre ++ c :: post) ctx0 H =
      (false,
        pre.foldl (fun a p => dictInsert a p.output_key (runOut p ctx0 H))
          ctx0) :=
  runParGo_prefix_writes ctx0 H c post hc pre ctx0 hok

/-- C10 witness: with the investor-settings stage succeeding first and the
pitch-deck stage then failing, the successful sibling's output is in the
returned context at `investor_settings` and the loop reports failure. -/
theorem run_parallel_partial_writes_witness :
    runParallel parallel_configs (initCtx (.vInt 1) (.vInt 2)) handlersC2 =
      (false,
        [("pitch_id", Val.vInt 1), ("investor_id", Val.vInt 2),
         ("investor_settings", Val.vStr ("ok"))]) :=
  run_parallel_partial_writes (initCtx (.vInt 1) (.vInt 2)) handlersC2
    [⟨"Investment Settings Agent", "inestment_settings_agent.py",
      "generate_profile_summary", true, "investor_id", "investor_settings"⟩]
    ⟨"Pitch Deck Processing Agent", "pitch_deck_processing_agent.py",
      "process_pitch_deck", true, "pitch_id", "pitch_processing"⟩
    [] (by decide) (by decide)

/-- C8 (amended): a stage whose declared `input_key` resolves to no value
(`context.get` returns `None`, whether the key is absent or holds `None`)
is not a failure: `_run_module_function` returns `None` without invoking
the handler, and the parallel collection loop records it as a success,
writing `None` at the stage's `output_key` and continuing.  Only a raising
handler aborts the pipeline. -/
theorem missing_input_is_success (cfg : AgentConfig) (ctx : Ctx)
    (H : Handlers) (hmiss : ctxGetV ctx cfg.input_key = .vNull) :
    runModule cfg ctx none H = Except.ok .vNull ∧
    ∀ (rest : List AgentConfig) (acc : Ctx),
      runParGo ctx H (cfg :: rest) acc =
        runParGo ctx H rest (dictInsert acc cfg.output_key .vNull) := by
  have hrun : runModule cfg ctx none H = Except.ok .vNull := by
    simp [runModule, hmiss]
  refine ⟨hrun, ?_⟩
  intro rest acc
  simp only [runParGo, hrun]

/-- Stage used by the C8 witness and counterexample: its `input_key` is
absent from the seeded context. -/
def cfgMissingInput : AgentConfig :=
  ⟨"X Agent", "x_agent.py", "fx", true, "missing_key", "x_out"⟩

/-- Handlers that always raise — showing the handler is never even invoked
when the input is missing. -/
def handlersAlwaysRaise : Handlers := fun _ _ => Except.error ("handler raised")

/-- C8 witness: the theorem applied to a stage whose `input_key` is absent
from the context. -/
theorem missing_input_is_success_witness :
    runModule cfgMissingInput (initCtx (.vInt 1) (.vInt 2)) none
        handlersAlwaysRaise = Except.ok .vNull ∧
    runParGo (initCtx (.vInt 1) (.vInt 2)) handlersAlwaysRaise
        [cfgMissingInput] (initCtx (.vInt 1) (.vInt 2)) =
      runParGo (initCtx (.vInt 1) (.vInt 2)) handlersAlwaysRaise []
        (dictInsert (initCtx (.vInt 1) (.vInt 2)) ("x_out") .vNull) :=
  ⟨(missing_input_is_success cfgMissingInput (initCtx (.vInt 1) (.vInt 2))
      handlersAlwaysRaise (by decide)).1,
   (missing_input_is_success cfgMissingInput (initCtx (.vInt 1) (.vInt 2))
      handlersAlwaysRaise (by decide)).2 [] (initCtx (.vInt 1) (.vInt 2))⟩

/-- C8 counterexample: a stage whose `input_key` is absent does not abort
the pipeline — `run_parallel_agents` reports success with `None` stored at
the stage's `output_key`; and an `orchestrate` run whose every stage gets
no usable input (both identifiers `None`) still returns
`(True, <placeholder report>)`, not `(False, None)`. -/
theorem missing_input_not_aborted :
    runParallel [cfgMissingInput] (initCtx (.vInt 1) (.vInt 2))
        handlersAlwaysRaise =
      (true,
        [("pitch_id", Val.vInt 1), ("investor_id", Val.vInt 2),
         ("x_out", Val.vNull)]) ∧
    orchestrate .vNull .vNull handlersAlwaysRaise parallel_configs ("T") =
      Except.ok (true, some (.vObj
        [("Executive Summary", .vStr ("No detailed summary available")),
         ("metadata", metaBlock ("T"))])) := by
  constructor
  · rfl
  · rfl

/-! ## Construction-time validation -/

/-- C4 (amended): `AgentOrchestrator.__init__` validates only that every
stage's handler module file exists — any configuration whose files all
exist passes, with no duplicate-`output_key` check anywhere; the fixed
stage list the constructor installs does happen to have pairwise-distinct
`output_key`s. -/
theorem init_checks_files_only :
    (agent_configs.map (fun c => c.output_key)).Nodup ∧
    ∀ (cfgs : List AgentConfig) (fs : String → Bool),
      (∀ c ∈ cfgs, fs c.filename = true) →
      initValidate cfgs fs = Except.ok () := by
  constructor
  · decide
  · intro cfgs fs h
    have hall : cfgs.all (fun c => fs c.filename) = true :=
      List.all_eq_true.mpr h
    simp [initValidate, hall]

/-- Two stages sharing the `output_key` `"investor_settings"`. -/
def dupKeyConfigs : List AgentConfig :=
  [⟨"Investment Settings Agent", "inestment_settings_agent.py",
    "generate_profile_summary", true, "investor_id", "investor_settings"⟩,
   ⟨"Pitch Deck Processing Agent", "pitch_deck_processing_agent.py",
    "process_pitch_deck", true, "pitch_id", "investor_settings"⟩]

/-- C4 witness: the theorem applied to a configuration with a duplicated
`output_key` whose module files all exist — construction succeeds. -/
theorem init_checks_files_only_witness :
    initValidate dupKeyConfigs (fun _ => true) = Except.ok () :=
  init_checks_files_only.2 dupKeyConfigs (fun _ => true) (fun _ _ => rfl)

/-- C4 counterexample: a stage list with two stages sharing an
`output_key` is accepted by the construction-time validation (which only
checks file existence), contradicting "rejected at pipeline construction
time". -/
theorem init_accepts_duplicate_output_keys :
    initValidate dupKeyConfigs (fun _ => true) = Except.ok () ∧
    ¬ (dupKeyConfigs.map (fun c => c.output_key)).Nodup := by
  constructor
  · rfl
  · decide

/-! ## Extractor theorems -/

/-- C9 (amended): the extraction strategies run with the braced-region
parse first and the direct whole-text parse second (the reverse of the
stated order): when the regex-bounded braced region parses, its value is
returned without consulting the whole-text parse; the direct parse of the
entire raw text wins only when the braced region is absent or
unparseable. -/
theorem extraction_strategy_order :
    (∀ (s : String) (j : Val), bracedParse s = some j →
      processResult s = j) ∧
    (∀ (s : String) (j : Val), bracedParse s = none → loads s = some j →
      processResult s = j) := by
  constructor
  · intro s j h
    simp [processResult, h]
  · intro s j h1 h2
    simp [processResult, h1, h2]

/-- C9 witness: both branches of the theorem applied at concrete raw
texts. -/
theorem extraction_strategy_order_witness :
    processResult ("[\x7b\"a\": 1\x7d]") = Val.vObj [("a", .vInt 1)] ∧
    processResult ("[1]") = Val.vArr [.vInt 1] :=
  ⟨extraction_strategy_order.1 ("[\x7b\"a\": 1\x7d]")
      (Val.vObj [("a", .vInt 1)]) (by decide),
   extraction_strategy_order.2 ("[1]") (Val.vArr [.vInt 1]) (by decide)
      (by decide)⟩

/-- C9 counterexample: the raw text `[\x7b"a": 1\x7d]` parses in its
entirety as a one-element list, yet the extractor returns the inner object
— the braced-region extraction runs before (not after) the direct
full-document parse, so "for every raw text whose entirety parses
directly, the result equals that direct parse" is false. -/
theorem extraction_not_direct_parse_first :
    loads ("[\x7b\"a\": 1\x7d]") =
      some (Val.vArr [Val.vObj [("a", Val.vInt 1)]]) ∧
    processResult ("[\x7b\"a\": 1\x7d]") = Val.vObj [("a", Val.vInt 1)] ∧
    Val.vObj [("a", Val.vInt 1)] ≠ Val.vArr [Val.vObj [("a", Val.vInt 1)]] := by
  refine ⟨by decide, by decide, by decide⟩

/-- C1 (amended): the result-processing chain never raises (it is a total
function of the raw text), and whenever neither the braced-region parse
nor the whole-text parse succeeds and the section scan does not find all
four required assessment sections, the manually-constructed fallback
document contains every required top-level section and every required
sub-field, each populated with a string (extracted content or the fixed
`"Unable to extract"` marker).  When a structured parse succeeds its value
is returned as-is, which can be schema-incomplete (see the
counterexample). -/
theorem fallback_schema_complete (s : String)
    (h1 : bracedParse s = none) (h2 : loads s = none)
    (h3 : sectionsComplete s = false) :
    requiredComplete (processResult s) = true := by
  simp only [processResult, h1, h2]
  simp only [fallbackDoc, h3, if_false, Bool.false_eq_true]
  rfl

/-- C1 witness: the theorem applied to the plain-prose raw text
`"hello"`, on which every parse fails and the fallback document is
schema-complete. -/
theorem fallback_schema_complete_witness :
    requiredComplete (processResult ("hello")) = true :=
  fallback_schema_complete ("hello") (by decide) (by decide) (by decide)

/-- C1 counterexample: on the raw text `"\x7b\x7d"` the braced-region
parse succeeds and its value — the empty object — is returned as-is: the
result omits every required section, contradicting "every required
top-level section and every required sub-field is present and
populated". -/
theorem direct_parse_skips_schema_check :
    processResult ("\x7b\x7d") = Val.vObj [] ∧
    requiredComplete (Val.vObj []) = false := by
  refine ⟨by decide, by decide⟩
